import Mathlib

/-!
# Verification of the buildbatter configuration deriver (`buildbatter/build.py`)

Shallow embedding of the matrix/scheduling logic of `build.py`:
a `BuildManager` holds a list of `BuildTarget`s plus the version axis,
the combination axis, and the worker-capability map (`slave_info`);
each target derives its schedulers and builder records, all keyed by the
builder-identity function `get_builder_name`.

Modelling conventions:
* Python strings are `String`; Python ints are `Int` (Python's `/` and `%`
  on ints are floor division and non-negative remainder for a positive
  divisor, i.e. `Int.fdiv` / `Int.fmod`).
* A value that may be `None` is an `Option`.
* The `assert` at the top of `get_builder_name` is modelled by returning
  `Except.error ()`: `BuildTarget.get_builder_name` is the assert-checked
  function, `get_builder_name_unchecked` is its body after the assert.
  The derivation loops in the source call the method only under an
  explicit `combination in self.exclude_from` guard, so they are embedded
  over `get_builder_name_unchecked`; the loops are parameterised over the
  name function so that "the assert is unreachable at every call site"
  is itself provable (the loops never consult the name function at an
  excluded combination).
* `BuildManager.get_builders` in the source does
  `rev_target_list = self.target_list; rev_target_list.reverse()`,
  which reverses the manager's own list in place; the embedding returns
  the builder list together with the post-call manager state.
* `build_rules` only matters to the claims through presence (`None` test)
  and through the step list produced by the base `BuildRules.addSteps`
  (checkout, the `SetProperty` announce-workdir step, and the
  `CustomTrigger` downstream-trigger steps); it is modelled as
  `Option Unit` plus the step list `mkSteps`.  Step fields not referenced
  by any claim (e.g. `set_properties`, `updateSourceStamp`, repository
  URLs) are omitted.
-/

/-- One cell of the build axis: `(primaryTargetName, variantLabel)`,
a Python 2-tuple of strings in the source. -/
abbrev Combination := String × String

/-- VCS kind of a branch, fixing the `is_head` test
(`GitBranch.is_head`: upstream branch is `master`;
`SVNBranch.is_head`: the branch name is `trunk`). -/
inductive BranchKind where
  | git (upstream_branch : String)
  | svn
deriving DecidableEq, Repr

/-- A source branch of a target (`Branch` subclasses in `build.py`).
Polling fields are omitted: no claim mentions pollers. -/
structure Branch where
  name : String
  kind : BranchKind
deriving DecidableEq, Repr

/-- `GitBranch.is_head` / `SVNBranch.is_head`. -/
def Branch.is_head (b : Branch) : Bool :=
  match b.kind with
  | .git upstream_branch => upstream_branch == "master"
  | .svn => b.name == "trunk"

/-- A build target (`BuildTarget.__init__` in `build.py`).
`build_rules` is `Option Unit` (only its `None`-ness is branched on;
the step pipeline is produced by `mkSteps` below). -/
structure BuildTarget where
  name : String
  branches : List Branch
  build_rules : Option Unit
  dependencies : List String
  allow_sandbox : Bool
  nightly : Bool
  nightly_hour : Int
  nightly_minute : Int
  nightly_stagger_interval : Int
  triggers : List String
  wait_for_triggers : Bool
  trigger_properties : List (String × String)
  exclude_from : List Combination
deriving DecidableEq, Repr

/-- The manager (`BuildManager.__init__`).  In the source the targets
hold a back-reference to the manager; here the manager is passed to the
target methods explicitly.  `slave_info` is the worker-capability map
`version -> worker list`. -/
structure BuildManager where
  target_list : List BuildTarget
  pyvers : List String
  combinations : List Combination
  slave_info : List (String × List String)
deriving DecidableEq, Repr

/-- Module-level `get_trigger_name(target_name, combination, pyver, branch)`:
`"triggered_%s_%spy%s" % (target_name, "%s_%s_" % combination, pyver)`.
The `branch` parameter is unused in the source as well. -/
def get_trigger_name (target_name : String) (combination : Combination)
    (pyver : String) (branch : Option Branch) : String :=
  "triggered_" ++ target_name ++ "_" ++
    (combination.1 ++ "_" ++ combination.2 ++ "_") ++ "py" ++ pyver

/-- Body of `BuildTarget.get_builder_name` after its `assert`
(lines 322-338 of `build.py`). -/
def get_builder_name_unchecked (t : BuildTarget) (combination : Combination)
    (pyver : String) (branch : Option Branch) (sandbox : Bool) : Option String :=
  let finish : String → Option String := fun suffix0 =>
    let suffix := if sandbox then suffix0 ++ "sandbox_" else suffix0
    let name :=
      match branch with
      | some br =>
          if br.is_head = false ∧ 1 < t.branches.length then
            t.name ++ "_" ++ br.name
          else t.name
      | none => t.name
    some (name ++ "_" ++ suffix ++ "py" ++ pyver)
  if t.name = combination.1 then
    match branch with
    | some br => if br.name = combination.2 then finish "" else none
    | none => finish ""
  else
    finish (combination.1 ++ "_" ++ combination.2 ++ "_")

/-- `BuildTarget.get_builder_name` including its
`assert combination not in self.exclude_from` (modelled as
`Except.error ()` when the assertion fails). -/
def BuildTarget.get_builder_name (t : BuildTarget) (combination : Combination)
    (pyver : String) (branch : Option Branch) (sandbox : Bool) :
    Except Unit (Option String) :=
  if combination ∈ t.exclude_from then .error ()
  else .ok (get_builder_name_unchecked t combination pyver branch sandbox)

/-- The name function a target's derivation loops consult; always called
with an actual branch in the source loops. -/
abbrev NameFn := Combination → String → Branch → Bool → Option String

/-- The instantiation used by the actual derivation: the call sites all
guard on `combination not in self.exclude_from` first, so they reach the
post-assert body. -/
def BuildTarget.nameFn (t : BuildTarget) : NameFn :=
  fun combination pyver br sandbox =>
    get_builder_name_unchecked t combination pyver (some br) sandbox

/-! ## Step pipeline (`BuildRules.addSteps`) and trigger resolution -/

/-- `str()` of a Python boolean. -/
def pyBool (b : Bool) : String := if b then "True" else "False"

/-- A value handed to the execution engine that is either a plain Python
boolean or a `WithProperties("%(key:-default)s")` expression rendered at
run time from the build's properties. -/
inductive PropValue where
  | bool (b : Bool)
  | withDefault (key : String) (deflt : String)
deriving DecidableEq, Repr

/-- `str(build.getProperties().render(v))`: a boolean renders to itself
(`str(True) == "True"`), a `WithProperties("%(key:-default)s")` renders
to the property's value, falling back to the default. -/
def renderStr (props : List (String × String)) : PropValue → String
  | .bool b => pyBool b
  | .withDefault key deflt => (props.lookup key).getD deflt

/-- `CustomTrigger.start`: the effective wait-for-finish flag is
`str(render(myWaitForFinish)) == "True"`, resolved at trigger-start time
from the runtime properties. -/
def customTrigger_start_wait (props : List (String × String))
    (myWaitForFinish : PropValue) : Bool :=
  renderStr props myWaitForFinish == "True"

/-- One step added to a `BuildFactory` by the base `BuildRules`
pipeline.  Only the fields some claim refers to are kept. -/
inductive Step where
  | checkout (reponame : String) (workdir : String)
  | setProperty (property : String) (command : List String) (workdir : String)
  | customTrigger (schedulerNames : List String) (waitForFinish : PropValue)
deriving DecidableEq, Repr

/-- The step list produced by the base `BuildRules.addSteps` for one cell:
checkout (when a branch is present), the announce-workdir `SetProperty`
step, the (default no-op) test/build/upload phases, then one
`CustomTrigger` per name in `target.triggers`.  The trigger's
`waitForFinish` is `self.target.wait_for_triggers or nightly` where
`nightly = WithProperties("%(nightly:-" + str(target.nightly) + ")s")`:
Python's `or` yields `True` itself when `wait_for_triggers` is true and
the `WithProperties` expression otherwise. -/
def mkSteps (t : BuildTarget) (branch : Option Branch) (python pyver : String)
    (workdir : String) (env : List (String × String)) (combination : Combination)
    (sandbox : Bool) : List Step :=
  (match branch with
   | some br => [Step.checkout (t.name ++ "_" ++ br.name) workdir]
   | none => []) ++
  [Step.setProperty (t.name ++ "_workdir") ["pwd"] workdir] ++
  t.triggers.map (fun trigger =>
    Step.customTrigger
      [get_trigger_name trigger combination pyver branch]
      (if t.wait_for_triggers then PropValue.bool true
       else PropValue.withDefault "nightly" (pyBool t.nightly)))

/-! ## Scheduler and builder records -/

/-- A scheduler handed to the execution engine.  The nightly scheduler's
`builderNames` is `List (Option String)` because
`get_nightly_schedulers` appends `get_builder_name`'s result without
filtering `None` (unlike the other two scheduler generators). -/
inductive Scheduler where
  | triggerable (name : String) (builderNames : List String)
  | repoChange (name : String) (repo_names : List String)
      (treeStableTimer : Int) (builderNames : List String)
  | nightly (name : String) (builderNames : List (Option String))
      (hour : Int) (minute : Int)
  | tryJobdir (name : String) (builderNames : List String) (jobdir : String)
deriving DecidableEq, Repr

/-- The `(hour, minute)` of a nightly scheduler as total minutes
(other schedulers have no time-of-day; they report 0). -/
def Scheduler.timeOf : Scheduler → Int
  | .nightly _ _ hour minute => 60 * hour + minute
  | _ => 0

/-- Python's `str()` of a combination tuple, used in the nightly
scheduler name `'%s-%s' % (self.name, combination)` (quote-escaping
inside the component strings is not modelled). -/
def reprCombination (c : Combination) : String :=
  "('" ++ c.1 ++ "', '" ++ c.2 ++ "')"

/-- One entry of the builder list handed to the execution engine
(the dict literal in `BuildTarget.get_builders`). -/
structure BuilderRec where
  name : String
  slavename : String
  builddir : String
  factory : List Step
  category : String
deriving DecidableEq, Repr

/-! ## `BuildTarget.get_schedulers` (continuous scheduling) -/

/-- Inner loop of `get_schedulers` over the combination axis for a fixed
branch and version: skip excluded combinations, and for each surviving
name collect it into the branch's builder-name list and emit one
`Triggerable` addressed by the deterministic trigger name. -/
def contCombLoop (nameFn : NameFn) (t : BuildTarget) (branch : Branch)
    (pyver : String) : List Combination → List String × List Scheduler
  | [] => ([], [])
  | combination :: rest =>
    if combination ∈ t.exclude_from then contCombLoop nameFn t branch pyver rest
    else
      match nameFn combination pyver branch false with
      | some name =>
          let acc := contCombLoop nameFn t branch pyver rest
          (name :: acc.1,
           Scheduler.triggerable
             (get_trigger_name t.name combination pyver (some branch)) [name]
             :: acc.2)
      | none => contCombLoop nameFn t branch pyver rest

/-- Outer loop of `get_schedulers` over the version axis. -/
def contPyLoop (nameFn : NameFn) (t : BuildTarget) (branch : Branch)
    (combinations : List Combination) : List String → List String × List Scheduler
  | [] => ([], [])
  | pyver :: pyvers =>
    let here := contCombLoop nameFn t branch pyver combinations
    let acc := contPyLoop nameFn t branch combinations pyvers
    (here.1 ++ acc.1, here.2 ++ acc.2)

/-- `BuildTarget.get_schedulers`, parameterised over the name function:
nothing for nightly or rule-less targets; otherwise, per branch, the
per-cell `Triggerable`s followed by one change-driven
`RepoChangeScheduler` over that branch's surviving builder names. -/
def get_schedulers_with (nameFn : NameFn) (t : BuildTarget) (m : BuildManager) :
    List Scheduler :=
  if t.build_rules = none ∨ t.nightly = true then []
  else
    t.branches.flatMap (fun branch =>
      let acc := contPyLoop nameFn t branch m.combinations m.pyvers
      let repo_name := t.name ++ "_" ++ branch.name
      acc.2 ++ [Scheduler.repoChange repo_name [repo_name] 60 acc.1])

/-- `BuildTarget.get_schedulers` proper. -/
def BuildTarget.get_schedulers (t : BuildTarget) (m : BuildManager) :
    List Scheduler :=
  get_schedulers_with t.nameFn t m

/-! ## `BuildTarget.get_nightly_schedulers` -/

/-- Loop body of `get_nightly_schedulers`: skip excluded combinations
(without advancing the stagger accumulator), otherwise emit one `Nightly`
scheduler whose builder-name list spans every version × branch for the
combination — appended *unfiltered*, so `None` identities land in the
list — then advance the accumulator by
`hour += interval / 60; minute += interval % 60` with a carry only when
`minute` lands exactly on 60. -/
def nightlyLoop (nameFn : NameFn) (t : BuildTarget) (m : BuildManager) :
    List Combination → Int → Int → List Scheduler
  | [], _, _ => []
  | combination :: rest, hour, minute =>
    if combination ∈ t.exclude_from then nightlyLoop nameFn t m rest hour minute
    else
      let builderNames :=
        m.pyvers.flatMap (fun pyver =>
          t.branches.map (fun branch => nameFn combination pyver branch false))
      let sched := Scheduler.nightly (t.name ++ "-" ++ reprCombination combination)
        builderNames hour minute
      let hour' := hour + t.nightly_stagger_interval.fdiv 60
      let minute' := minute + t.nightly_stagger_interval.fmod 60
      if minute' = 60 then sched :: nightlyLoop nameFn t m rest (hour' + 1) 0
      else sched :: nightlyLoop nameFn t m rest hour' minute'

/-- `BuildTarget.get_nightly_schedulers`, parameterised over the name
function. -/
def get_nightly_schedulers_with (nameFn : NameFn) (t : BuildTarget)
    (m : BuildManager) : List Scheduler :=
  if t.nightly then
    nightlyLoop nameFn t m m.combinations t.nightly_hour t.nightly_minute
  else []

/-- `BuildTarget.get_nightly_schedulers` proper. -/
def BuildTarget.get_nightly_schedulers (t : BuildTarget) (m : BuildManager) :
    List Scheduler :=
  get_nightly_schedulers_with t.nameFn t m

/-! ## `BuildTarget.get_sandbox_schedulers` -/

/-- `BuildTarget.get_sandbox_schedulers`, parameterised over the name
function: for a sandbox-enabled target, one `Try_Jobdir` scheduler over
every non-excluded cell's identity with the sandbox flag set (this
generator does filter out `None` identities, via `if name:`). -/
def get_sandbox_schedulers_with (nameFn : NameFn) (t : BuildTarget)
    (m : BuildManager) : List Scheduler :=
  if t.allow_sandbox then
    let builder_names :=
      m.pyvers.flatMap (fun pyver =>
        (m.combinations.filter (fun c => c ∉ t.exclude_from)).flatMap
          (fun combination =>
            t.branches.filterMap (fun branch =>
              nameFn combination pyver branch true)))
    [Scheduler.tryJobdir ("sandbox_" ++ t.name) builder_names
      ("jobdir_" ++ t.name)]
  else []

/-- `BuildTarget.get_sandbox_schedulers` proper. -/
def BuildTarget.get_sandbox_schedulers (t : BuildTarget) (m : BuildManager) :
    List Scheduler :=
  get_sandbox_schedulers_with t.nameFn t m

/-! ## `BuildTarget.get_builders` / `get_sandbox_builders` -/

/-- Branch loop of `BuildTarget.get_builders`: skip the branch when the
version is absent from the worker-capability map or the identity is
`None`; otherwise emit one builder record (worker = first entry of the
version's worker list; working directory and build directory are the
target name and the builder name; factory = the rule pipeline's steps). -/
def buildersLoop (nameFn : NameFn) (t : BuildTarget) (m : BuildManager)
    (combination : Combination) (python pyver : String)
    (env : List (String × String)) (category : String) (sandbox : Bool) :
    List Branch → List BuilderRec
  | [] => []
  | branch :: rest =>
    if (m.slave_info.lookup pyver).isNone then
      buildersLoop nameFn t m combination python pyver env category sandbox rest
    else
      match nameFn combination pyver branch sandbox with
      | none =>
          buildersLoop nameFn t m combination python pyver env category sandbox rest
      | some name =>
          { name := name,
            slavename := ((m.slave_info.lookup pyver).getD []).headD "",
            builddir := name,
            factory := mkSteps t (some branch) python pyver t.name env
              combination sandbox,
            category := category } ::
            buildersLoop nameFn t m combination python pyver env category sandbox rest

/-- `BuildTarget.get_builders`, parameterised over the name function. -/
def get_builders_with (nameFn : NameFn) (t : BuildTarget) (m : BuildManager)
    (combination : Combination) (python pyver : String)
    (env : List (String × String)) (category : String) (sandbox : Bool) :
    List BuilderRec :=
  if t.build_rules = none ∨ combination ∈ t.exclude_from then []
  else buildersLoop nameFn t m combination python pyver env category sandbox t.branches

/-- `BuildTarget.get_builders` proper (defaults in the source:
`category="builds"`, `sandbox=False`; the manager's loop passes them
explicitly only for the sandbox pass). -/
def BuildTarget.get_builders (t : BuildTarget) (m : BuildManager)
    (combination : Combination) (python pyver : String)
    (env : List (String × String)) (category : String) (sandbox : Bool) :
    List BuilderRec :=
  get_builders_with t.nameFn t m combination python pyver env category sandbox

/-- `BuildTarget.get_sandbox_builders`. -/
def BuildTarget.get_sandbox_builders (t : BuildTarget) (m : BuildManager)
    (combination : Combination) (python pyver : String)
    (env : List (String × String)) : List BuilderRec :=
  if t.allow_sandbox then
    t.get_builders m combination python pyver env "sandbox" true
  else []

/-! ## `BuildManager` aggregation -/

/-- `BuildManager.get_schedulers`: nightly schedulers for all targets,
then continuous schedulers for all targets, then sandbox schedulers for
all targets. -/
def BuildManager.get_schedulers (m : BuildManager) : List Scheduler :=
  m.target_list.flatMap (fun t => t.get_nightly_schedulers m) ++
  m.target_list.flatMap (fun t => t.get_schedulers m) ++
  m.target_list.flatMap (fun t => t.get_sandbox_schedulers m)

/-- Target loop of `BuildManager.get_builders`: for each target (already
in reversed order) × combination × version, extend the normal and the
sandbox builder lists. -/
def gbLoop (m : BuildManager) : List BuildTarget → List BuilderRec × List BuilderRec
  | [] => ([], [])
  | t :: rest =>
    let contrib := m.combinations.flatMap (fun combination =>
      m.pyvers.flatMap (fun pyver =>
        t.get_builders m combination ("python" ++ pyver) pyver [] "builds" false))
    let scontrib := m.combinations.flatMap (fun combination =>
      m.pyvers.flatMap (fun pyver =>
        t.get_sandbox_builders m combination ("python" ++ pyver) pyver []))
    let acc := gbLoop m rest
    (contrib ++ acc.1, scontrib ++ acc.2)

/-- `BuildManager.get_builders`.  The source's
`rev_target_list = self.target_list; rev_target_list.reverse()` reverses
the manager's own `target_list` in place (Python `list.reverse` mutates
and `rev_target_list` aliases the attribute), so the call both returns
`builders + sandbox_builders` and leaves the manager with a reversed
`target_list`; the embedding returns the pair (result, post-call state). -/
def BuildManager.get_builders (m : BuildManager) : List BuilderRec × BuildManager :=
  let rev_target_list := m.target_list.reverse
  let m' : BuildManager := { m with target_list := rev_target_list }
  let acc := gbLoop m' rev_target_list
  (acc.1 ++ acc.2, m')

/-! ## Spec-side definitions (taken from the claims' wording, to be
compared with the source embedding) -/

/-- C1's suffix: empty when the target owns the combination, else
`"<combination.primary>_<combination.variant>_"`, with `"sandbox_"`
appended exactly when the sandbox flag is set. -/
def claimSuffix (t : BuildTarget) (combination : Combination) (sandbox : Bool) :
    String :=
  (if t.name = combination.1 then ""
   else combination.1 ++ "_" ++ combination.2 ++ "_") ++
  (if sandbox then "sandbox_" else "")

/-- C1's base: the target name, with `"_" + branch.name` appended exactly
when a branch is given, the branch is not head, and the target has more
than one branch. -/
def claimBase (t : BuildTarget) (branch : Option Branch) : String :=
  match branch with
  | some br =>
      if br.is_head = false ∧ 1 < t.branches.length then
        t.name ++ "_" ++ br.name
      else t.name
  | none => t.name

/-- Adding a combination to a target's exclusion set (C6). -/
def excludeCombination (t : BuildTarget) (c : Combination) : BuildTarget :=
  { t with exclude_from := c :: t.exclude_from }

/-- Replacing the manager's combination axis (used to express "as if the
combination were deleted from the axis"). -/
def BuildManager.withCombinations (m : BuildManager) (cs : List Combination) :
    BuildManager :=
  { m with combinations := cs }

/-! ## The cell enumeration underlying `BuildManager.get_builders` (C3) -/

/-- A fully-specified builder cell: target × combination × version ×
branch × sandbox flag. -/
abbrev BuildCell := BuildTarget × Combination × String × Branch × Bool

/-- The builder record (if any) that `BuildManager.get_builders` emits
for one cell: nothing when the target has no rules, the combination is
excluded, the cell is a sandbox cell of a non-sandbox target, the
version has no worker, or the identity is `None`. -/
def cellRec (m : BuildManager) : BuildCell → Option BuilderRec :=
  fun cell =>
    let t := cell.1
    let combination := cell.2.1
    let pyver := cell.2.2.1
    let branch := cell.2.2.2.1
    let sandbox := cell.2.2.2.2
    if t.build_rules = none ∨ combination ∈ t.exclude_from then none
    else if sandbox = true ∧ t.allow_sandbox = false then none
    else if (m.slave_info.lookup pyver).isNone then none
    else
      (get_builder_name_unchecked t combination pyver (some branch) sandbox).map
        (fun name =>
          { name := name,
            slavename := ((m.slave_info.lookup pyver).getD []).headD "",
            builddir := name,
            factory := mkSteps t (some branch) ("python" ++ pyver) pyver t.name
              [] combination sandbox,
            category := if sandbox then "sandbox" else "builds" })

/-- The cells `BuildManager.get_builders` enumerates, in emission order:
reverse-registration targets × combinations × versions × branches, the
non-sandbox pass followed by the sandbox pass. -/
def cellsOf (m : BuildManager) : List BuildCell :=
  m.target_list.reverse.flatMap (fun t =>
    m.combinations.flatMap (fun combination =>
      m.pyvers.flatMap (fun pyver =>
        t.branches.map (fun branch => (t, combination, pyver, branch, false))))) ++
  m.target_list.reverse.flatMap (fun t =>
    m.combinations.flatMap (fun combination =>
      m.pyvers.flatMap (fun pyver =>
        t.branches.map (fun branch => (t, combination, pyver, branch, true)))))

/-! ## Concrete configurations used by witnesses and counterexamples -/

/-- A head branch (git, upstream `master`). -/
def brMain : Branch := { name := "main", kind := .git "master" }

/-- SVN `trunk` branch: head. -/
def brTrunk : Branch := { name := "trunk", kind := .svn }

/-- SVN `dev` branch: not head. -/
def brDev : Branch := { name := "dev", kind := .svn }

/-- A non-head git branch named `b`. -/
def brB : Branch := { name := "b", kind := .git "dev" }

/-- A plain continuous target with the given name and branches. -/
def mkPlainTarget (name : String) (branches : List Branch) : BuildTarget :=
  { name := name, branches := branches, build_rules := some (),
    dependencies := [], allow_sandbox := false, nightly := false,
    nightly_hour := 0, nightly_minute := 0, nightly_stagger_interval := 0,
    triggers := [], wait_for_triggers := false, trigger_properties := [],
    exclude_from := [] }

/-- C3's colliding pair, first target: `a` with a head branch and a
non-head branch `b`. -/
def tColA : BuildTarget := mkPlainTarget "a" [brMain, brB]

/-- C3's colliding pair, second target: `a_b` with a single head branch. -/
def tColB : BuildTarget := mkPlainTarget "a_b" [brMain]

/-- C3 counterexample manager: both targets build under the foreign
combination `("z", "v")`, so `a`'s branch `b` and `a_b`'s head branch
both produce the builder name `a_b_z_v_py2.6`. -/
def mCol : BuildManager :=
  { target_list := [tColA, tColB], pyvers := ["2.6"],
    combinations := [("z", "v")], slave_info := [("2.6", ["s1"])] }

/-- C3 witness manager: a single well-behaved target. -/
def mUniq : BuildManager :=
  { target_list := [mkPlainTarget "a" [brMain]], pyvers := ["2.6"],
    combinations := [("z", "v")], slave_info := [("2.6", ["s1"])] }

/-- C4/C6 nightly target: stagger 90 minutes from 00:00 over two foreign
combinations. -/
def tNight : BuildTarget :=
  { mkPlainTarget "n" [brMain] with
      nightly := true, nightly_stagger_interval := 90 }

/-- Manager for `tNight` with combinations `("x","1")`, `("x","2")`. -/
def mNight : BuildManager :=
  { target_list := [tNight], pyvers := ["2.6"],
    combinations := [("x", "1"), ("x", "2")], slave_info := [("2.6", ["s1"])] }

/-- The `mNight` manager after excluding `("x","1")` from `tNight` (C6). -/
def mNightEx : BuildManager :=
  { mNight with
      target_list :=
        mNight.target_list.set 0 (excludeCombination tNight ("x", "1")) }

/-- C5 mutation demo: two distinct plain targets. -/
def mMut : BuildManager :=
  { target_list := [mkPlainTarget "a" [brMain], mkPlainTarget "b" [brMain]],
    pyvers := ["2.6"], combinations := [("z", "v")],
    slave_info := [("2.6", ["s1"])] }

/-- C7 counterexample: version `2.6` has no registered worker. -/
def mNoSlave : BuildManager :=
  { target_list := [mkPlainTarget "t" [brMain]], pyvers := ["2.6"],
    combinations := [("z", "v")], slave_info := [] }

/-- C8: a nightly owner target `core` with head branch `trunk` and
non-head branch `dev`, under its own combination `("core","trunk")`. -/
def tCore : BuildTarget :=
  { mkPlainTarget "core" [brTrunk, brDev] with nightly := true }

/-- Manager for `tCore`. -/
def mCore : BuildManager :=
  { target_list := [tCore], pyvers := ["2.6"],
    combinations := [("core", "trunk")], slave_info := [("2.6", ["s1"])] }

/-- C9 witness: a target with one downstream trigger. -/
def tTrig : BuildTarget :=
  { mkPlainTarget "up" [brMain] with triggers := ["down"] }

/-- C10 witness material: `tCore` with `("z","9")` excluded. -/
def tExcl : BuildTarget := excludeCombination tCore ("z", "9")

/-- C10 witness material: the name function `tExcl`'s loops consult. -/
def exclNameFn : NameFn := tExcl.nameFn

/-- C10 witness material: a name function that differs from
`exclNameFn` exactly at the excluded combination. -/
def exclNameFnAlt : NameFn := fun combination pyver br sandbox =>
  if combination = ("z", "9") then none
  else tExcl.nameFn combination pyver br sandbox

/-! ## C1 / C2: the builder-identity function -/

/-- C1: for every non-excluded cell whose identity is an actual name,
`get_builder_name` returns `"<base>_<suffix>py<version>"` where the
suffix is empty for an owned combination and
`"<primary>_<variant>_"` for a foreign one, `"sandbox_"` is appended to
the suffix exactly when the sandbox flag is set, and the base is the
target name with `"_" + branch.name` appended exactly when a branch is
given, is not head, and the target has more than one branch. -/
theorem builder_name_shape (t : BuildTarget) (combination : Combination)
    (pyver : String) (branch : Option Branch) (sandbox : Bool)
    (hex : combination ∉ t.exclude_from) (s : String)
    (h : t.get_builder_name combination pyver branch sandbox =
      Except.ok (some s)) :
    s = claimBase t branch ++ "_" ++ claimSuffix t combination sandbox ++
      "py" ++ pyver := by
  rw [BuildTarget.get_builder_name, if_neg hex] at h
  have h' : get_builder_name_unchecked t combination pyver branch sandbox =
      some s := Except.ok.inj h
  unfold get_builder_name_unchecked at h'
  unfold claimBase claimSuffix
  cases branch with
  | none =>
      split_ifs at h' ⊢ <;>
        simp_all [String.append_assoc, String.empty_append, String.append_empty]
  | some br =>
      split_ifs at h' ⊢ <;>
        simp_all [String.append_assoc, String.empty_append, String.append_empty]

/-- C1 witness: the shape theorem applied to a concrete foreign cell. -/
theorem builder_name_shape_witness :
    ("a_b_z_v_py2.6" : String) =
      claimBase tColA (some brB) ++ "_" ++
        claimSuffix tColA ("z", "v") false ++ "py" ++ "2.6" :=
  builder_name_shape tColA ("z", "v") "2.6" (some brB) false (by decide)
    "a_b_z_v_py2.6" rfl

/-- C2: when the target owns the combination and the given branch's
variant label differs from the combination's variant label, the identity
function returns `None` (an excluded cell), for every version and
sandbox flag (under the function's precondition that the combination is
not in the exclusion set, cf. the assertion). -/
theorem owner_branch_mismatch_none (t : BuildTarget) (combination : Combination)
    (pyver : String) (br : Branch) (sandbox : Bool)
    (hex : combination ∉ t.exclude_from) (hown : t.name = combination.1)
    (hbr : br.name ≠ combination.2) :
    t.get_builder_name combination pyver (some br) sandbox =
      Except.ok none := by
  rw [BuildTarget.get_builder_name, if_neg hex]
  unfold get_builder_name_unchecked
  simp [hown, hbr]

/-- C2 witness: the owner target `core` under its combination
`("core","trunk")` with the mismatching branch `dev`. -/
theorem owner_branch_mismatch_none_witness :
    tCore.get_builder_name ("core", "trunk") "2.6" (some brDev) true =
      Except.ok none :=
  owner_branch_mismatch_none tCore ("core", "trunk") "2.6" brDev true
    (by decide) (by decide) (by decide)

/-! ## C9: trigger wait-for-finish resolution -/

/-- C9: every trigger step emitted by the trigger-downstream phase
resolves its effective wait-for-finish value at trigger-start time to
`wait_for_triggers OR nightly-now`, where nightly-now is the runtime
`nightly` property (defaulting to the target's static `nightly` value)
rendering as `"True"`. -/
theorem trigger_wait_or_nightly (t : BuildTarget) (branch : Option Branch)
    (python pyver workdir : String) (env : List (String × String))
    (combination : Combination) (sandbox : Bool)
    (props : List (String × String)) (schedulerNames : List String)
    (wf : PropValue)
    (h : Step.customTrigger schedulerNames wf ∈
      mkSteps t branch python pyver workdir env combination sandbox) :
    customTrigger_start_wait props wf =
      (t.wait_for_triggers ||
        ((props.lookup "nightly").getD (pyBool t.nightly) == "True")) := by
  have hwf : wf = (if t.wait_for_triggers then PropValue.bool true
      else PropValue.withDefault "nightly" (pyBool t.nightly)) := by
    cases branch with
    | none =>
        simp only [mkSteps, List.nil_append, List.singleton_append,
          List.mem_cons, List.mem_map] at h
        rcases h with h | h
        · exact absurd h (by simp)
        · rcases h with ⟨trig, _, htrig⟩
          exact ((Step.customTrigger.inj htrig).2).symm
    | some br =>
        simp only [mkSteps, List.singleton_append, List.cons_append,
          List.nil_append, List.mem_cons, List.mem_map] at h
        rcases h with h | h | h
        · exact absurd h (by simp)
        · exact absurd h (by simp)
        · rcases h with ⟨trig, _, htrig⟩
          exact ((Step.customTrigger.inj htrig).2).symm
  subst hwf
  cases hw : t.wait_for_triggers <;>
    simp [customTrigger_start_wait, renderStr, pyBool, hw]

/-- C9 witness: a target with one downstream trigger, in a run whose
properties carry `nightly = "True"`. -/
theorem trigger_wait_or_nightly_witness :
    customTrigger_start_wait [("nightly", "True")]
        (PropValue.withDefault "nightly" (pyBool tTrig.nightly)) =
      (tTrig.wait_for_triggers ||
        (([("nightly", "True")].lookup "nightly").getD
          (pyBool tTrig.nightly) == "True")) :=
  trigger_wait_or_nightly tTrig (some brMain) "python2.6" "2.6" "up" []
    ("z", "v") false [("nightly", "True")]
    [get_trigger_name "down" ("z", "v") "2.6" (some brMain)]
    (PropValue.withDefault "nightly" (pyBool tTrig.nightly))
    (by simp [mkSteps, tTrig, mkPlainTarget])

/-! ## C4: nightly stagger arithmetic -/

/-- The times of the schedulers emitted by `nightlyLoop` form an
arithmetic progression with step `nightly_stagger_interval` (in total
minutes): skipped combinations do not advance the accumulator, and the
carry branch (`if minute == 60`) preserves the total. -/
theorem nightlyLoop_times (nameFn : NameFn) (t : BuildTarget)
    (m : BuildManager) :
    ∀ (combos : List Combination) (hour minute : Int),
      (nightlyLoop nameFn t m combos hour minute).map Scheduler.timeOf =
        (List.range (nightlyLoop nameFn t m combos hour minute).length).map
          (fun k : Nat => 60 * hour + minute +
            (k : Int) * t.nightly_stagger_interval) := by
  intro combos
  induction combos with
  | nil => intro hour minute; simp [nightlyLoop]
  | cons c rest ih =>
      intro hour minute
      have hfm := Int.fdiv_add_fmod t.nightly_stagger_interval 60
      by_cases hc : c ∈ t.exclude_from
      · simp only [nightlyLoop, if_pos hc]
        exact ih hour minute
      · by_cases h60 :
            minute + t.nightly_stagger_interval.fmod 60 = (60 : Int)
        · have hunf : nightlyLoop nameFn t m (c :: rest) hour minute =
              Scheduler.nightly (t.name ++ "-" ++ reprCombination c)
                (m.pyvers.flatMap fun pyver =>
                  t.branches.map fun branch => nameFn c pyver branch false)
                hour minute ::
              nightlyLoop nameFn t m rest
                (hour + t.nightly_stagger_interval.fdiv 60 + 1) 0 := by
            simp only [nightlyLoop, if_neg hc, if_pos h60]
          rw [hunf, List.map_cons, List.length_cons, List.range_succ_eq_map,
            List.map_cons, List.map_map,
            ih (hour + t.nightly_stagger_interval.fdiv 60 + 1) 0]
          congr 1
          · simp [Scheduler.timeOf]
          · apply List.map_congr_left
            intro k hk
            simp only [Function.comp_apply]
            push_cast
            nlinarith [hfm, h60]
        · have hunf : nightlyLoop nameFn t m (c :: rest) hour minute =
              Scheduler.nightly (t.name ++ "-" ++ reprCombination c)
                (m.pyvers.flatMap fun pyver =>
                  t.branches.map fun branch => nameFn c pyver branch false)
                hour minute ::
              nightlyLoop nameFn t m rest
                (hour + t.nightly_stagger_interval.fdiv 60)
                (minute + t.nightly_stagger_interval.fmod 60) := by
            simp only [nightlyLoop, if_neg hc, if_neg h60]
          rw [hunf, List.map_cons, List.length_cons, List.range_succ_eq_map,
            List.map_cons, List.map_map,
            ih (hour + t.nightly_stagger_interval.fdiv 60)
              (minute + t.nightly_stagger_interval.fmod 60)]
          congr 1
          · simp [Scheduler.timeOf]
          · apply List.map_congr_left
            intro k hk
            simp only [Function.comp_apply]
            push_cast
            nlinarith [hfm]

/-- Element-wise form of `nightlyLoop_times`. -/
theorem nightlyLoop_get_timeOf (nameFn : NameFn) (t : BuildTarget)
    (m : BuildManager) (combos : List Combination) (hour minute : Int)
    (j : Nat) (hj : j < (nightlyLoop nameFn t m combos hour minute).length) :
    ((nightlyLoop nameFn t m combos hour minute).get ⟨j, hj⟩).timeOf =
      60 * hour + minute + (j : Int) * t.nightly_stagger_interval := by
  have hmap := nightlyLoop_times nameFn t m combos hour minute
  have h1 := congrArg (fun (L : List Int) => L[j]?) hmap
  simp only [List.getElem?_map] at h1
  rw [List.getElem?_eq_getElem hj,
    List.getElem?_eq_getElem (by simpa using hj)] at h1
  simp only [Option.map_some, Option.some.injEq, List.getElem_range] at h1
  simpa [List.get_eq_getElem] using h1

/-- C4: across the non-excluded combinations in declared order, each
successive nightly scheduler's time-of-day advances by exactly the
configured stagger interval (in total minutes, the carry at the
60-minute boundary preserving the total); and in the concrete 90-minute
example starting at 00:00, the first combination fires at 00:00 and the
second at 01:30. -/
theorem nightly_stagger_advance :
    (∀ (t : BuildTarget) (m : BuildManager), t.nightly = true →
      ∀ (k : Nat) (hk : k + 1 < (t.get_nightly_schedulers m).length),
        ((t.get_nightly_schedulers m).get ⟨k + 1, hk⟩).timeOf =
          ((t.get_nightly_schedulers m).get
            ⟨k, Nat.lt_of_succ_lt hk⟩).timeOf + t.nightly_stagger_interval) ∧
    tNight.get_nightly_schedulers mNight =
      [Scheduler.nightly "n-('x', '1')" [some "n_x_1_py2.6"] 0 0,
       Scheduler.nightly "n-('x', '2')" [some "n_x_2_py2.6"] 1 30] := by
  constructor
  · intro t m hn k hk
    have hunf : t.get_nightly_schedulers m =
        nightlyLoop t.nameFn t m m.combinations t.nightly_hour
          t.nightly_minute := by
      simp [BuildTarget.get_nightly_schedulers, get_nightly_schedulers_with, hn]
    revert hk
    rw [hunf]
    intro hk
    rw [nightlyLoop_get_timeOf t.nameFn t m m.combinations t.nightly_hour
        t.nightly_minute (k + 1) hk,
      nightlyLoop_get_timeOf t.nameFn t m m.combinations t.nightly_hour
        t.nightly_minute k (Nat.lt_of_succ_lt hk)]
    push_cast
    ring
  · decide

/-- C4 witness: the stagger theorem applied at the 90-minute example. -/
theorem nightly_stagger_advance_witness :
    ((tNight.get_nightly_schedulers mNight).get ⟨1, by decide⟩).timeOf =
      ((tNight.get_nightly_schedulers mNight).get ⟨0, by decide⟩).timeOf +
        tNight.nightly_stagger_interval :=
  nightly_stagger_advance.1 tNight mNight (by decide) 0 (by decide)

/-! ## C8: `get_nightly_schedulers` does not filter `None` identities -/

/-- C8 (against the claim, which matches the evident intent): the nightly
builder-name list is appended without the `if name:` filter the other
two scheduler generators apply, so an owning target's mismatching branch
(`dev` under `("core","trunk")`) lands in the list as a `None` entry. -/
theorem nightly_builder_names_contain_none :
    tCore.get_nightly_schedulers mCore =
      [Scheduler.nightly "core-('core', 'trunk')"
        [some "core_py2.6", none] 0 0] ∧
    (∃ name builderNames hour minute,
      Scheduler.nightly name builderNames hour minute ∈
        tCore.get_nightly_schedulers mCore ∧ none ∈ builderNames) :=
  ⟨by decide,
   "core-('core', 'trunk')", [some "core_py2.6", none], 0, 0,
   by decide, by decide⟩

/-! ## C5: `get_builders` mutates the registration order -/

/-- C5 (against the claim, which matches the evident intent): the source
aliases `rev_target_list = self.target_list` and calls `.reverse()` on
it, reversing the registration list in place, so a call to
`get_builders` flips `target_list`, a second call returns the records in
the opposite order, and a later `get_schedulers` sees the flipped
order. -/
theorem builders_call_mutates_manager :
    (mMut.get_builders).2.target_list ≠ mMut.target_list ∧
    ((mMut.get_builders).2.get_builders).1 ≠ (mMut.get_builders).1 ∧
    (mMut.get_builders).2.get_schedulers ≠ mMut.get_schedulers :=
  ⟨by decide, by decide, by decide⟩

/-! ## C7: versions absent from the worker-capability map -/

/-- `buildersLoop` emits nothing when the version has no entry in
`slave_info` (the `continue` on `pyver not in self.manager.slave_info`). -/
theorem buildersLoop_no_worker (nameFn : NameFn) (t : BuildTarget)
    (m : BuildManager) (combination : Combination) (python pyver : String)
    (env : List (String × String)) (category : String) (sandbox : Bool)
    (h : m.slave_info.lookup pyver = none) :
    ∀ bl : List Branch,
      buildersLoop nameFn t m combination python pyver env category sandbox
        bl = [] := by
  intro bl
  induction bl with
  | nil => rfl
  | cons br rest ih => simp [buildersLoop, h, ih]

/-- `nightlyLoop` reads the manager only through its version axis. -/
theorem nightlyLoop_pyvers (nameFn : NameFn) (t : BuildTarget)
    (m1 m2 : BuildManager) (hp : m1.pyvers = m2.pyvers) :
    ∀ (combos : List Combination) (hour minute : Int),
      nightlyLoop nameFn t m1 combos hour minute =
        nightlyLoop nameFn t m2 combos hour minute := by
  intro combos
  induction combos with
  | nil => intro hour minute; rfl
  | cons c rest ih =>
      intro hour minute
      simp only [nightlyLoop, hp, ih]

/-- C7 counterexample: with no worker registered for version `2.6`,
builder generation emits nothing, but scheduler generation still emits
the version's cells (a `Triggerable` naming `t_z_v_py2.6`), contradicting
"contributes nothing to both scheduler generation and builder
generation". -/
theorem version_without_worker_counterexample :
    mNoSlave.slave_info.lookup "2.6" = none ∧
    Scheduler.triggerable "triggered_t_z_v_py2.6" ["t_z_v_py2.6"] ∈
      mNoSlave.get_schedulers ∧
    (mNoSlave.get_builders).1 = [] :=
  ⟨by decide, by decide, by decide⟩

/-- C7 (amended): a version absent from `slave_info` contributes nothing
to builder generation — silently, like an excluded combination — while
scheduler generation never consults the worker-capability map at all
(its output is invariant under replacing `slave_info`). -/
theorem version_without_worker_skip :
    (∀ (t : BuildTarget) (m : BuildManager) (combination : Combination)
       (python pyver : String) (env : List (String × String))
       (category : String) (sandbox : Bool),
       m.slave_info.lookup pyver = none →
       t.get_builders m combination python pyver env category sandbox = []) ∧
    (∀ (m : BuildManager) (s1 s2 : List (String × List String)),
       BuildManager.get_schedulers { m with slave_info := s1 } =
       BuildManager.get_schedulers { m with slave_info := s2 }) := by
  constructor
  · intro t m combination python pyver env category sandbox h
    rw [BuildTarget.get_builders, get_builders_with]
    split
    · rfl
    · exact buildersLoop_no_worker t.nameFn t m combination python pyver env
        category sandbox h t.branches
  · intro m s1 s2
    rw [BuildManager.get_schedulers, BuildManager.get_schedulers]
    have h1 : ∀ t : BuildTarget,
        BuildTarget.get_nightly_schedulers t { m with slave_info := s1 } =
        BuildTarget.get_nightly_schedulers t { m with slave_info := s2 } := by
      intro t
      rw [BuildTarget.get_nightly_schedulers, get_nightly_schedulers_with,
        BuildTarget.get_nightly_schedulers, get_nightly_schedulers_with]
      split
      · exact nightlyLoop_pyvers t.nameFn t { m with slave_info := s1 }
          { m with slave_info := s2 } rfl m.combinations
          t.nightly_hour t.nightly_minute
      · rfl
    rw [List.flatMap_congr (fun t _ => h1 t)]
    rfl

/-- C7 witness: the amended theorem at the concrete worker-less
configuration. -/
theorem version_without_worker_skip_witness :
    (mkPlainTarget "t" [brMain]).get_builders mNoSlave ("z", "v")
      "python2.6" "2.6" [] "builds" false = [] ∧
    BuildManager.get_schedulers { mNoSlave with slave_info := [] } =
      BuildManager.get_schedulers
        { mNoSlave with slave_info := [("2.6", ["s1"])] } :=
  ⟨version_without_worker_skip.1 (mkPlainTarget "t" [brMain]) mNoSlave
      ("z", "v") "python2.6" "2.6" [] "builds" false (by decide),
   version_without_worker_skip.2 mNoSlave [] [("2.6", ["s1"])]⟩

/-! ## C10: the assert's precondition and its call sites -/

/-- `contCombLoop` consults the name function only at non-excluded
combinations. -/
theorem contCombLoop_congr (f g : NameFn) (t : BuildTarget) (branch : Branch)
    (pyver : String)
    (h : ∀ (combination : Combination) (pyver : String) (branch : Branch)
      (sandbox : Bool), combination ∉ t.exclude_from →
      f combination pyver branch sandbox = g combination pyver branch sandbox) :
    ∀ combos : List Combination,
      contCombLoop f t branch pyver combos =
        contCombLoop g t branch pyver combos := by
  intro combos
  induction combos with
  | nil => rfl
  | cons c rest ih =>
      by_cases hc : c ∈ t.exclude_from
      · simp only [contCombLoop, if_pos hc, ih]
      · simp only [contCombLoop, if_neg hc, ih, h c pyver branch false hc]

/-- `contPyLoop` consults the name function only at non-excluded
combinations. -/
theorem contPyLoop_congr (f g : NameFn) (t : BuildTarget) (branch : Branch)
    (combinations : List Combination)
    (h : ∀ (combination : Combination) (pyver : String) (branch : Branch)
      (sandbox : Bool), combination ∉ t.exclude_from →
      f combination pyver branch sandbox = g combination pyver branch sandbox) :
    ∀ pyvers : List String,
      contPyLoop f t branch combinations pyvers =
        contPyLoop g t branch combinations pyvers := by
  intro pyvers
  induction pyvers with
  | nil => rfl
  | cons pv rest ih =>
      simp only [contPyLoop, ih, contCombLoop_congr f g t branch pv h]

/-- `nightlyLoop` consults the name function only at non-excluded
combinations. -/
theorem nightlyLoop_congr (f g : NameFn) (t : BuildTarget) (m : BuildManager)
    (h : ∀ (combination : Combination) (pyver : String) (branch : Branch)
      (sandbox : Bool), combination ∉ t.exclude_from →
      f combination pyver branch sandbox = g combination pyver branch sandbox) :
    ∀ (combos : List Combination) (hour minute : Int),
      nightlyLoop f t m combos hour minute =
        nightlyLoop g t m combos hour minute := by
  intro combos
  induction combos with
  | nil => intro hour minute; rfl
  | cons c rest ih =>
      intro hour minute
      by_cases hc : c ∈ t.exclude_from
      · simp only [nightlyLoop, if_pos hc, ih]
      · have hb : (fun pyver => t.branches.map fun branch =>
            f c pyver branch false) =
            (fun pyver => t.branches.map fun branch =>
              g c pyver branch false) := by
          funext pv
          exact List.map_congr_left (fun br _ => h c pv br false hc)
        simp only [nightlyLoop, if_neg hc, ih, hb]

/-- `buildersLoop` consults the name function only at its given
combination. -/
theorem buildersLoop_congr (f g : NameFn) (t : BuildTarget) (m : BuildManager)
    (combination : Combination) (python pyver : String)
    (env : List (String × String)) (category : String) (sandbox : Bool)
    (hfg : f combination pyver = g combination pyver) :
    ∀ bl : List Branch,
      buildersLoop f t m combination python pyver env category sandbox bl =
        buildersLoop g t m combination python pyver env category sandbox bl := by
  intro bl
  induction bl with
  | nil => rfl
  | cons br rest ih => simp only [buildersLoop, ih, hfg]

/-- C10: `get_builder_name` has the precondition that the combination is
not excluded — on an excluded combination the assertion fires
(`Except.error`, not a `None` result); under the precondition it returns
the post-assert body; and every derivation loop consults the name
function only at combinations satisfying the precondition, so the
assertion is unreachable during scheduler and builder derivation. -/
theorem builder_name_assert_precondition :
    (∀ (t : BuildTarget) (combination : Combination) (pyver : String)
       (branch : Option Branch) (sandbox : Bool),
       combination ∈ t.exclude_from →
       t.get_builder_name combination pyver branch sandbox =
         Except.error ()) ∧
    (∀ (t : BuildTarget) (combination : Combination) (pyver : String)
       (branch : Option Branch) (sandbox : Bool),
       combination ∉ t.exclude_from →
       t.get_builder_name combination pyver branch sandbox =
         Except.ok (get_builder_name_unchecked t combination pyver branch
           sandbox)) ∧
    (∀ (t : BuildTarget) (m : BuildManager) (f g : NameFn),
       (∀ (combination : Combination) (pyver : String) (branch : Branch)
          (sandbox : Bool), combination ∉ t.exclude_from →
          f combination pyver branch sandbox =
            g combination pyver branch sandbox) →
       get_schedulers_with f t m = get_schedulers_with g t m ∧
       get_nightly_schedulers_with f t m = get_nightly_schedulers_with g t m ∧
       get_sandbox_schedulers_with f t m = get_sandbox_schedulers_with g t m ∧
       (∀ (combination : Combination) (python pyver : String)
          (env : List (String × String)) (category : String) (sandbox : Bool),
          get_builders_with f t m combination python pyver env category
            sandbox =
          get_builders_with g t m combination python pyver env category
            sandbox)) := by
  refine ⟨?_, ?_, ?_⟩
  · intro t combination pyver branch sandbox hmem
    rw [BuildTarget.get_builder_name, if_pos hmem]
  · intro t combination pyver branch sandbox hmem
    rw [BuildTarget.get_builder_name, if_neg hmem]
  · intro t m f g h
    refine ⟨?_, ?_, ?_, ?_⟩
    · rw [get_schedulers_with, get_schedulers_with]
      split
      · rfl
      · exact List.flatMap_congr (fun branch _ => by
          rw [contPyLoop_congr f g t branch m.combinations h m.pyvers])
    · rw [get_nightly_schedulers_with, get_nightly_schedulers_with]
      split
      · exact nightlyLoop_congr f g t m h m.combinations t.nightly_hour
          t.nightly_minute
      · rfl
    · rw [get_sandbox_schedulers_with, get_sandbox_schedulers_with]
      split
      · refine congrArg (fun bn => [Scheduler.tryJobdir ("sandbox_" ++ t.name)
          bn ("jobdir_" ++ t.name)]) ?_
        refine List.flatMap_congr (fun pyver _ => ?_)
        refine List.flatMap_congr (fun combination hcomb => ?_)
        have hc : combination ∉ t.exclude_from := by
          simpa using (List.mem_filter.mp hcomb).2
        exact List.filterMap_congr (fun branch _ => h combination pyver
          branch true hc)
      · rfl
    · intro combination python pyver env category sandbox
      rw [get_builders_with, get_builders_with]
      split
      · rfl
      · rename_i hguard
        have hc : combination ∉ t.exclude_from := fun hmem =>
          hguard (Or.inr hmem)
        exact buildersLoop_congr f g t m combination python pyver env
          category sandbox (by funext br sb; exact h combination pyver br sb hc)
          t.branches

/-- C10 witness: the assertion fires on `tExcl`'s excluded combination,
the checked function agrees with its body elsewhere, and the four
derivation generators cannot tell `exclNameFn` from a function that
differs only at the excluded combination. -/
theorem builder_name_assert_precondition_witness :
    tExcl.get_builder_name ("z", "9") "2.6" (some brTrunk) false =
      Except.error () ∧
    tCore.get_builder_name ("core", "trunk") "2.6" (some brTrunk) false =
      Except.ok (get_builder_name_unchecked tCore ("core", "trunk") "2.6"
        (some brTrunk) false) ∧
    get_schedulers_with exclNameFn tExcl mCore =
      get_schedulers_with exclNameFnAlt tExcl mCore ∧
    get_nightly_schedulers_with exclNameFn tExcl mCore =
      get_nightly_schedulers_with exclNameFnAlt tExcl mCore ∧
    get_sandbox_schedulers_with exclNameFn tExcl mCore =
      get_sandbox_schedulers_with exclNameFnAlt tExcl mCore ∧
    get_builders_with exclNameFn tExcl mCore ("core", "trunk") "python2.6"
      "2.6" [] "builds" false =
    get_builders_with exclNameFnAlt tExcl mCore ("core", "trunk") "python2.6"
      "2.6" [] "builds" false := by
  have hagree : ∀ (combination : Combination) (pyver : String) (branch : Branch)
      (sandbox : Bool), combination ∉ tExcl.exclude_from →
      exclNameFn combination pyver branch sandbox =
        exclNameFnAlt combination pyver branch sandbox := by
    intro combination pyver branch sandbox hmem
    have hne : combination ≠ ("z", "9") := by
      intro e
      exact hmem (by rw [e]; decide)
    simp [exclNameFn, exclNameFnAlt, hne]
  have hmain := builder_name_assert_precondition.2.2 tExcl mCore exclNameFn
    exclNameFnAlt hagree
  exact ⟨builder_name_assert_precondition.1 tExcl ("z", "9") "2.6"
      (some brTrunk) false (by decide),
    builder_name_assert_precondition.2.1 tCore ("core", "trunk") "2.6"
      (some brTrunk) false (by decide),
    hmain.1, hmain.2.1, hmain.2.2.1,
    hmain.2.2.2 ("core", "trunk") "python2.6" "2.6" [] "builds" false⟩

/-! ## C3: builder-name uniqueness -/

/-- `buildersLoop` as a `filterMap` over the branch list. -/
theorem buildersLoop_eq_filterMap (nameFn : NameFn) (t : BuildTarget)
    (m : BuildManager) (combination : Combination) (python pyver : String)
    (env : List (String × String)) (category : String) (sandbox : Bool) :
    ∀ bl : List Branch,
      buildersLoop nameFn t m combination python pyver env category sandbox
        bl =
      bl.filterMap (fun branch =>
        if (m.slave_info.lookup pyver).isNone then none
        else
          (nameFn combination pyver branch sandbox).map (fun name =>
            { name := name,
              slavename := ((m.slave_info.lookup pyver).getD []).headD "",
              builddir := name,
              factory := mkSteps t (some branch) python pyver t.name env
                combination sandbox,
              category := category })) := by
  intro bl
  induction bl with
  | nil => rfl
  | cons br rest ih =>
      by_cases hs : (m.slave_info.lookup pyver).isNone
      · simp [buildersLoop, hs, ih]
      · cases hn : nameFn combination pyver br sandbox <;>
          simp [buildersLoop, hs, hn, ih]

/-- The non-sandbox builder records of one target at one combination and
version are the `cellRec` survivors over its branches. -/
theorem get_builders_eq_cellRec (t : BuildTarget) (m : BuildManager)
    (combination : Combination) (pyver : String) :
    t.get_builders m combination ("python" ++ pyver) pyver [] "builds"
      false =
    t.branches.filterMap (fun branch =>
      cellRec m (t, combination, pyver, branch, false)) := by
  rw [BuildTarget.get_builders, get_builders_with]
  split
  · rename_i hguard
    symm
    rw [List.filterMap_eq_nil_iff]
    intro branch _
    simp only [cellRec, if_pos hguard]
  · rename_i hguard
    rw [buildersLoop_eq_filterMap]
    refine List.filterMap_congr (fun branch _ => ?_)
    simp only [cellRec, if_neg hguard, false_and, if_false, if_neg
      (fun h : (false = true ∧ t.allow_sandbox = false) => nomatch h.1)]
    by_cases hs : (m.slave_info.lookup pyver).isNone
    · simp [hs]
    · simp [hs, BuildTarget.nameFn]

/-- The sandbox builder records of one target at one combination and
version are the `cellRec` survivors (sandbox flag set) over its
branches. -/
theorem get_sandbox_builders_eq_cellRec (t : BuildTarget) (m : BuildManager)
    (combination : Combination) (pyver : String) :
    t.get_sandbox_builders m combination ("python" ++ pyver) pyver [] =
    t.branches.filterMap (fun branch =>
      cellRec m (t, combination, pyver, branch, true)) := by
  rw [BuildTarget.get_sandbox_builders]
  by_cases ha : t.allow_sandbox
  · rw [if_pos ha, BuildTarget.get_builders, get_builders_with]
    split
    · rename_i hguard
      symm
      rw [List.filterMap_eq_nil_iff]
      intro branch _
      simp only [cellRec, if_pos hguard]
    · rename_i hguard
      rw [buildersLoop_eq_filterMap]
      refine List.filterMap_congr (fun branch _ => ?_)
      by_cases hs : (m.slave_info.lookup pyver).isNone
      · simp [cellRec, hguard, hs, ha]
      · simp [cellRec, hguard, hs, ha, BuildTarget.nameFn]
  · rw [if_neg ha]
    symm
    rw [List.filterMap_eq_nil_iff]
    intro branch _
    have ha2 : t.allow_sandbox = false := by simpa using ha
    simp [cellRec, ha2]

/-- First component of `gbLoop`: the non-sandbox records over the cell
grid of the given target list. -/
theorem gbLoop_fst (m : BuildManager) :
    ∀ l : List BuildTarget,
      (gbLoop m l).1 =
        l.flatMap (fun t =>
          m.combinations.flatMap (fun combination =>
            m.pyvers.flatMap (fun pyver =>
              t.branches.filterMap (fun branch =>
                cellRec m (t, combination, pyver, branch, false))))) := by
  intro l
  induction l with
  | nil => rfl
  | cons t rest ih =>
      simp only [gbLoop, ih, List.flatMap_cons]
      congr 1
      refine List.flatMap_congr (fun combination _ => ?_)
      refine List.flatMap_congr (fun pyver _ => ?_)
      exact get_builders_eq_cellRec t m combination pyver

/-- Second component of `gbLoop`: the sandbox records over the cell
grid. -/
theorem gbLoop_snd (m : BuildManager) :
    ∀ l : List BuildTarget,
      (gbLoop m l).2 =
        l.flatMap (fun t =>
          m.combinations.flatMap (fun combination =>
            m.pyvers.flatMap (fun pyver =>
              t.branches.filterMap (fun branch =>
                cellRec m (t, combination, pyver, branch, true))))) := by
  intro l
  induction l with
  | nil => rfl
  | cons t rest ih =>
      simp only [gbLoop, ih, List.flatMap_cons]
      congr 1
      refine List.flatMap_congr (fun combination _ => ?_)
      refine List.flatMap_congr (fun pyver _ => ?_)
      exact get_sandbox_builders_eq_cellRec t m combination pyver

/-- The builder list is exactly the `cellRec` survivors of the cell
enumeration. -/
theorem get_builders_eq_cells (m : BuildManager) :
    (m.get_builders).1 = (cellsOf m).filterMap (cellRec m) := by
  rw [BuildManager.get_builders]
  rw [cellsOf, List.filterMap_append]
  simp only [List.filterMap_flatMap, List.filterMap_map]
  rw [gbLoop_fst, gbLoop_snd]
  rfl

/-- Duplicate-free names out of a duplicate-free cell list with an
injective record-name assignment. -/
theorem nodup_filterMap_name (f : BuildCell → Option BuilderRec) :
    ∀ l : List BuildCell, l.Nodup →
      (∀ c1 ∈ l, ∀ c2 ∈ l, (f c1).isSome = true →
        (f c1).map BuilderRec.name = (f c2).map BuilderRec.name → c1 = c2) →
      ((l.filterMap f).map BuilderRec.name).Nodup := by
  intro l
  induction l with
  | nil => intro _ _; simp
  | cons c rest ih =>
      intro hnd hinj
      have hndr := (List.nodup_cons.mp hnd).2
      have hcr := (List.nodup_cons.mp hnd).1
      rw [List.filterMap_cons]
      cases hf : f c with
      | none =>
          exact ih hndr (fun c1 h1 c2 h2 => hinj c1 (List.mem_cons_of_mem c h1)
            c2 (List.mem_cons_of_mem c h2))
      | some r =>
          rw [List.map_cons]
          refine List.nodup_cons.mpr ⟨?_, ih hndr (fun c1 h1 c2 h2 =>
            hinj c1 (List.mem_cons_of_mem c h1) c2
              (List.mem_cons_of_mem c h2))⟩
          intro hmem
          rcases List.mem_map.mp hmem with ⟨r2, hr2mem, hr2name⟩
          rcases List.mem_filterMap.mp hr2mem with ⟨c2, hc2mem, hc2⟩
          have : c = c2 := by
            refine hinj c (List.mem_cons_self c rest) c2
              (List.mem_cons_of_mem c hc2mem) ?_ ?_
            · rw [hf]; rfl
            · rw [hf, hc2]; simp [hr2name]
          exact hcr (this ▸ hc2mem)

/-- C3 counterexample: target `a` (head branch plus non-head branch `b`)
and target `a_b` (single head branch) under the foreign combination
`("z","v")` both produce the builder name `a_b_z_v_py2.6`, so the global
builder list has a duplicate name. -/
theorem builders_names_duplicate :
    ¬ (((mCol.get_builders).1).map BuilderRec.name).Nodup := by decide

/-- C3 (amended): the aggregation itself never duplicates — whenever the
cell enumeration is duplicate-free and the identity assignment gives
distinct surviving cells distinct names, `get_builders` contains no two
records with identical name.  (Unconditionally the claim fails: distinct
cells can collide on the composed name, cf. the counterexample.) -/
theorem builders_names_nodup (m : BuildManager)
    (hcells : (cellsOf m).Nodup)
    (hinj : ∀ c1 ∈ cellsOf m, ∀ c2 ∈ cellsOf m,
      (cellRec m c1).isSome = true →
      (cellRec m c1).map BuilderRec.name = (cellRec m c2).map BuilderRec.name →
      c1 = c2) :
    (((m.get_builders).1).map BuilderRec.name).Nodup := by
  rw [get_builders_eq_cells]
  exact nodup_filterMap_name (cellRec m) (cellsOf m) hcells hinj

/-- C3 witness: the amended theorem at a one-target configuration. -/
theorem builders_names_nodup_witness :
    (cellsOf mUniq).Nodup ∧
    (((mUniq.get_builders).1).map BuilderRec.name).Nodup :=
  ⟨by decide, builders_names_nodup mUniq (by decide) (by decide)⟩

/-! ## C6: excluding a combination -/

/-- `excludeCombination` does not change the name function (the identity
computation never reads the exclusion set past its assert). -/
theorem nameFn_exclude (t : BuildTarget) (c : Combination) :
    (excludeCombination t c).nameFn = t.nameFn := rfl

/-- `excludeCombination` does not change the step pipeline. -/
theorem mkSteps_exclude (t : BuildTarget) (c : Combination)
    (branch : Option Branch) (python pyver workdir : String)
    (env : List (String × String)) (combination : Combination)
    (sandbox : Bool) :
    mkSteps (excludeCombination t c) branch python pyver workdir env
      combination sandbox =
    mkSteps t branch python pyver workdir env combination sandbox := rfl

/-- Field projections of `excludeCombination` (everything but the
exclusion set is untouched). -/
theorem exclude_fields (t : BuildTarget) (c : Combination) :
    (excludeCombination t c).build_rules = t.build_rules ∧
    (excludeCombination t c).nightly = t.nightly ∧
    (excludeCombination t c).allow_sandbox = t.allow_sandbox ∧
    (excludeCombination t c).name = t.name ∧
    (excludeCombination t c).branches = t.branches ∧
    (excludeCombination t c).nightly_hour = t.nightly_hour ∧
    (excludeCombination t c).nightly_minute = t.nightly_minute ∧
    (excludeCombination t c).nightly_stagger_interval =
      t.nightly_stagger_interval ∧
    (excludeCombination t c).exclude_from = c :: t.exclude_from :=
  ⟨rfl, rfl, rfl, rfl, rfl, rfl, rfl, rfl, rfl⟩

/-- Field projections of `withCombinations`. -/
theorem withCombinations_fields (m : BuildManager) (cs : List Combination) :
    (m.withCombinations cs).pyvers = m.pyvers ∧
    (m.withCombinations cs).combinations = cs ∧
    (m.withCombinations cs).slave_info = m.slave_info ∧
    (m.withCombinations cs).target_list = m.target_list :=
  ⟨rfl, rfl, rfl, rfl⟩

/-- For the continuous inner loop, excluding `c` is the same as deleting
`c` from the combination axis. -/
theorem contCombLoop_exclude (nameFn : NameFn) (t : BuildTarget)
    (c : Combination) (branch : Branch) (pyver : String) :
    ∀ combos : List Combination,
      contCombLoop nameFn (excludeCombination t c) branch pyver combos =
        contCombLoop nameFn t branch pyver
          (combos.filter (fun x => x ≠ c)) := by
  intro combos
  induction combos with
  | nil => rfl
  | cons d rest ih =>
      have hef : (excludeCombination t c).exclude_from =
        c :: t.exclude_from := rfl
      by_cases hdc : d = c
      · subst hdc
        have hm : d ∈ (excludeCombination t d).exclude_from :=
          List.mem_cons_self _ _
        simp only [contCombLoop, if_pos hm, ih, List.filter_cons]
        simp
      · by_cases hd : d ∈ t.exclude_from
        · have hm : d ∈ (excludeCombination t c).exclude_from := by
            rw [hef]; exact List.mem_cons_of_mem _ hd
          simp only [contCombLoop, if_pos hm, ih, List.filter_cons]
          simp [hdc, contCombLoop, hd]
        · have hm : d ∉ (excludeCombination t c).exclude_from := by
            rw [hef]
            intro hmem
            rcases List.mem_cons.mp hmem with h | h
            · exact hdc h
            · exact hd h
          have hkeep : List.filter (fun x => decide (x ≠ c)) (d :: rest) =
              d :: List.filter (fun x => decide (x ≠ c)) rest := by
            simp [List.filter_cons, hdc]
          rw [hkeep]
          simp only [contCombLoop, if_neg hm, if_neg hd, ih]
          cases hn : nameFn d pyver branch false <;> rfl

/-- For the continuous outer loop, excluding `c` is the same as deleting
`c` from the combination axis. -/
theorem contPyLoop_exclude (nameFn : NameFn) (t : BuildTarget)
    (c : Combination) (branch : Branch) (combinations : List Combination) :
    ∀ pyvers : List String,
      contPyLoop nameFn (excludeCombination t c) branch combinations pyvers =
        contPyLoop nameFn t branch
          (combinations.filter (fun x => x ≠ c)) pyvers := by
  intro pyvers
  induction pyvers with
  | nil => rfl
  | cons pv rest ih =>
      simp only [contPyLoop, ih, contCombLoop_exclude]

/-- For `get_schedulers`, excluding `c` from the target is the same as
deleting `c` from the manager's combination axis. -/
theorem get_schedulers_exclude (t : BuildTarget) (c : Combination)
    (m : BuildManager) :
    (excludeCombination t c).get_schedulers m =
      t.get_schedulers
        (m.withCombinations (m.combinations.filter (fun x => x ≠ c))) := by
  rw [BuildTarget.get_schedulers, get_schedulers_with,
    BuildTarget.get_schedulers, get_schedulers_with]
  rw [(exclude_fields t c).1, (exclude_fields t c).2.1,
    (exclude_fields t c).2.2.2.1, (exclude_fields t c).2.2.2.2.1,
    (withCombinations_fields m _).1, (withCombinations_fields m _).2.1]
  by_cases hg : t.build_rules = none ∨ t.nightly = true
  · rw [if_pos hg, if_pos hg]
  · rw [if_neg hg, if_neg hg]
    refine List.flatMap_congr (fun branch _ => ?_)
    rw [nameFn_exclude, contPyLoop_exclude]

/-- For the nightly loop, excluding `c` is the same as deleting `c` from
the iterated combination list (the stagger accumulator advances over
exactly the same emitted schedulers). -/
theorem nightlyLoop_exclude (nameFn : NameFn) (t : BuildTarget)
    (c : Combination) (m1 m2 : BuildManager) (hp : m1.pyvers = m2.pyvers) :
    ∀ (combos : List Combination) (hour minute : Int),
      nightlyLoop nameFn (excludeCombination t c) m1 combos hour minute =
        nightlyLoop nameFn t m2 (combos.filter (fun x => x ≠ c))
          hour minute := by
  intro combos
  induction combos with
  | nil => intro hour minute; rfl
  | cons d rest ih =>
      intro hour minute
      have hef : (excludeCombination t c).exclude_from =
        c :: t.exclude_from := rfl
      by_cases hdc : d = c
      · subst hdc
        have hm : d ∈ (excludeCombination t d).exclude_from :=
          List.mem_cons_self _ _
        simp only [nightlyLoop, if_pos hm, ih, List.filter_cons]
        simp
      · by_cases hd : d ∈ t.exclude_from
        · have hm : d ∈ (excludeCombination t c).exclude_from := by
            rw [hef]; exact List.mem_cons_of_mem _ hd
          have hkeep : List.filter (fun x => decide (x ≠ c)) (d :: rest) =
              d :: List.filter (fun x => decide (x ≠ c)) rest := by
            simp [List.filter_cons, hdc]
          rw [hkeep]
          simp only [nightlyLoop, if_pos hm, if_pos hd, ih]
        · have hm : d ∉ (excludeCombination t c).exclude_from := by
            rw [hef]
            intro hmem
            rcases List.mem_cons.mp hmem with h | h
            · exact hdc h
            · exact hd h
          have hkeep : List.filter (fun x => decide (x ≠ c)) (d :: rest) =
              d :: List.filter (fun x => decide (x ≠ c)) rest := by
            simp [List.filter_cons, hdc]
          rw [hkeep]
          simp only [nightlyLoop, if_neg hm, if_neg hd, ih, hp,
            (exclude_fields t c).2.2.2.1, (exclude_fields t c).2.2.2.2.1,
            (exclude_fields t c).2.2.2.2.2.2.2.1]

/-- For `get_nightly_schedulers`, excluding `c` from the target is the
same as deleting `c` from the manager's combination axis. -/
theorem get_nightly_schedulers_exclude (t : BuildTarget) (c : Combination)
    (m : BuildManager) :
    (excludeCombination t c).get_nightly_schedulers m =
      t.get_nightly_schedulers
        (m.withCombinations (m.combinations.filter (fun x => x ≠ c))) := by
  rw [BuildTarget.get_nightly_schedulers, get_nightly_schedulers_with,
    BuildTarget.get_nightly_schedulers, get_nightly_schedulers_with]
  rw [(exclude_fields t c).2.1, (exclude_fields t c).2.2.2.2.2.1,
    (exclude_fields t c).2.2.2.2.2.2.1, (withCombinations_fields m _).2.1]
  by_cases hn : t.nightly
  · rw [if_pos hn, if_pos hn]
    rw [nameFn_exclude]
    exact nightlyLoop_exclude t.nameFn t c m
      (m.withCombinations (m.combinations.filter (fun x => x ≠ c))) rfl
      m.combinations t.nightly_hour t.nightly_minute
  · rw [if_neg hn, if_neg hn]

/-- Filtering out the freshly excluded combination commutes with the
exclusion filter. -/
theorem filter_not_mem_cons (E : List Combination) (c : Combination)
    (l : List Combination) :
    l.filter (fun x => x ∉ c :: E) =
      (l.filter (fun x => x ≠ c)).filter (fun x => x ∉ E) := by
  rw [List.filter_filter]
  refine List.filter_congr (fun x _ => ?_)
  simp [List.mem_cons, not_or, Bool.and_comm]

/-- For `get_sandbox_schedulers`, excluding `c` from the target is the
same as deleting `c` from the manager's combination axis. -/
theorem get_sandbox_schedulers_exclude (t : BuildTarget) (c : Combination)
    (m : BuildManager) :
    (excludeCombination t c).get_sandbox_schedulers m =
      t.get_sandbox_schedulers
        (m.withCombinations (m.combinations.filter (fun x => x ≠ c))) := by
  rw [BuildTarget.get_sandbox_schedulers, get_sandbox_schedulers_with,
    BuildTarget.get_sandbox_schedulers, get_sandbox_schedulers_with]
  rw [(exclude_fields t c).2.2.1, (exclude_fields t c).2.2.2.1,
    (exclude_fields t c).2.2.2.2.1, nameFn_exclude,
    (withCombinations_fields m _).1, (withCombinations_fields m _).2.1]
  by_cases ha : t.allow_sandbox
  · rw [if_pos ha, if_pos ha]
    have hf : (m.combinations.filter
        (fun x => x ∉ (excludeCombination t c).exclude_from)) =
        ((m.combinations.filter (fun x => x ≠ c)).filter
          (fun x => x ∉ t.exclude_from)) :=
      filter_not_mem_cons t.exclude_from c m.combinations
    rw [hf]
  · rw [if_neg ha, if_neg ha]

/-- `buildersLoop` ignores the exclusion set (its guard lives in
`get_builders`). -/
theorem buildersLoop_exclude (nameFn : NameFn) (t : BuildTarget)
    (c : Combination) (m : BuildManager) (combination : Combination)
    (python pyver : String) (env : List (String × String))
    (category : String) (sandbox : Bool) :
    ∀ bl : List Branch,
      buildersLoop nameFn (excludeCombination t c) m combination python pyver
        env category sandbox bl =
      buildersLoop nameFn t m combination python pyver env category sandbox
        bl := by
  intro bl
  induction bl with
  | nil => rfl
  | cons br rest ih =>
      simp only [buildersLoop, ih, mkSteps_exclude, (exclude_fields t c).2.2.2.1]

/-- For `get_builders`, excluding `c` empties exactly the `c` cells and
leaves every other combination's records unchanged. -/
theorem get_builders_exclude (t : BuildTarget) (c : Combination)
    (m : BuildManager) (combination : Combination) (python pyver : String)
    (env : List (String × String)) (category : String) (sandbox : Bool) :
    (excludeCombination t c).get_builders m combination python pyver env
      category sandbox =
    (if combination = c then []
     else t.get_builders m combination python pyver env category sandbox) := by
  rw [BuildTarget.get_builders, get_builders_with]
  by_cases hc : combination = c
  · subst hc
    rw [(exclude_fields t combination).1,
      (exclude_fields t combination).2.2.2.2.2.2.2.2]
    rw [if_pos (Or.inr (List.mem_cons_self _ _)), if_pos rfl]
  · rw [if_neg hc, BuildTarget.get_builders, get_builders_with,
      (exclude_fields t c).1, (exclude_fields t c).2.2.2.2.1]
    by_cases hg : t.build_rules = none ∨ combination ∈ t.exclude_from
    · rw [if_pos, if_pos hg]
      rcases hg with h | h
      · exact Or.inl h
      · exact Or.inr (List.mem_cons_of_mem _ h)
    · rw [if_neg, if_neg hg, nameFn_exclude, buildersLoop_exclude]
      intro hg2
      rcases hg2 with h | h
      · exact hg (Or.inl h)
      · rcases List.mem_cons.mp h with h2 | h2
        · exact hc h2
        · exact hg (Or.inr h2)

/-- `buildersLoop` reads the manager only through the worker-capability
map. -/
theorem buildersLoop_slave (nameFn : NameFn) (t : BuildTarget)
    (m1 m2 : BuildManager) (hs : m1.slave_info = m2.slave_info)
    (combination : Combination) (python pyver : String)
    (env : List (String × String)) (category : String) (sandbox : Bool) :
    ∀ bl : List Branch,
      buildersLoop nameFn t m1 combination python pyver env category sandbox
        bl =
      buildersLoop nameFn t m2 combination python pyver env category sandbox
        bl := by
  intro bl
  induction bl with
  | nil => rfl
  | cons br rest ih => simp only [buildersLoop, hs, ih]

/-- `BuildTarget.get_builders` reads the manager only through the
worker-capability map. -/
theorem get_builders_slave (t : BuildTarget) (m1 m2 : BuildManager)
    (hs : m1.slave_info = m2.slave_info) (combination : Combination)
    (python pyver : String) (env : List (String × String))
    (category : String) (sandbox : Bool) :
    t.get_builders m1 combination python pyver env category sandbox =
      t.get_builders m2 combination python pyver env category sandbox := by
  rw [BuildTarget.get_builders, get_builders_with,
    BuildTarget.get_builders, get_builders_with]
  split
  · rfl
  · exact buildersLoop_slave t.nameFn t m1 m2 hs combination python pyver env
      category sandbox t.branches

/-- `gbLoop` reads the manager only through its axes and the
worker-capability map, never through `target_list`. -/
theorem gbLoop_manager (m1 m2 : BuildManager)
    (hcomb : m1.combinations = m2.combinations) (hpy : m1.pyvers = m2.pyvers)
    (hs : m1.slave_info = m2.slave_info) :
    ∀ l : List BuildTarget, gbLoop m1 l = gbLoop m2 l := by
  intro l
  induction l with
  | nil => rfl
  | cons t rest ih =>
      simp only [gbLoop, ih, hcomb, hpy]
      congr 1
      · congr 1
        refine List.flatMap_congr (fun combination _ => ?_)
        refine List.flatMap_congr (fun pyver _ => ?_)
        exact get_builders_slave t m1 m2 hs combination ("python" ++ pyver)
          pyver [] "builds" false
      · congr 1
        refine List.flatMap_congr (fun combination _ => ?_)
        refine List.flatMap_congr (fun pyver _ => ?_)
        rw [BuildTarget.get_sandbox_builders, BuildTarget.get_sandbox_builders]
        split
        · exact get_builders_slave t m1 m2 hs combination ("python" ++ pyver)
            pyver [] "sandbox" true
        · rfl

/-- `get_nightly_schedulers` ignores the manager's target list. -/
theorem get_nightly_schedulers_target_list (u : BuildTarget)
    (m : BuildManager) (L : List BuildTarget) :
    u.get_nightly_schedulers { m with target_list := L } =
      u.get_nightly_schedulers m := by
  rw [BuildTarget.get_nightly_schedulers, get_nightly_schedulers_with,
    BuildTarget.get_nightly_schedulers, get_nightly_schedulers_with]
  split
  · exact nightlyLoop_pyvers u.nameFn u { m with target_list := L } m rfl
      m.combinations u.nightly_hour u.nightly_minute
  · rfl

/-- C6 (amended): adding `c` to target `i`'s exclusion set (1) changes
the manager outputs only through target `i`'s own contributions — every
other target's schedulers and builders are generated by the identical
terms — and (2) target `i` then derives exactly what it would derive had
`c` been deleted from the combination axis: its `c` cells disappear from
the continuous, nightly and sandbox schedulers and from the builder
records, and every other combination's cells keep their identities and
records, except that a nightly target's staggered fire times are
recomputed over the shortened axis (cf. the counterexample: they are
*not* all unchanged). -/
theorem exclusion_frame (m : BuildManager) (i : Nat) (c : Combination)
    (hi : i < m.target_list.length) (t0 t2 : BuildTarget) (m2 : BuildManager)
    (ht0 : t0 = m.target_list.get ⟨i, hi⟩)
    (ht2 : t2 = excludeCombination t0 c)
    (hm2 : m2 = { m with target_list := m.target_list.set i t2 }) :
    m2.get_schedulers =
      ((m.target_list.set i t2).flatMap
        (fun u => u.get_nightly_schedulers m) ++
       (m.target_list.set i t2).flatMap (fun u => u.get_schedulers m) ++
       (m.target_list.set i t2).flatMap
        (fun u => u.get_sandbox_schedulers m)) ∧
    (m2.get_builders).1 =
      (gbLoop m ((m.target_list.set i t2).reverse)).1 ++
      (gbLoop m ((m.target_list.set i t2).reverse)).2 ∧
    t2.get_schedulers m =
      t0.get_schedulers
        (m.withCombinations (m.combinations.filter (fun x => x ≠ c))) ∧
    t2.get_nightly_schedulers m =
      t0.get_nightly_schedulers
        (m.withCombinations (m.combinations.filter (fun x => x ≠ c))) ∧
    t2.get_sandbox_schedulers m =
      t0.get_sandbox_schedulers
        (m.withCombinations (m.combinations.filter (fun x => x ≠ c))) ∧
    (∀ (python pyver : String) (env : List (String × String))
       (category : String) (sandbox : Bool),
       t2.get_builders m c python pyver env category sandbox = []) ∧
    (∀ combination : Combination, combination ≠ c →
       ∀ (python pyver : String) (env : List (String × String))
         (category : String) (sandbox : Bool),
         t2.get_builders m combination python pyver env category sandbox =
         t0.get_builders m combination python pyver env category sandbox) := by
  subst ht0 ht2 hm2
  refine ⟨?_, ?_, get_schedulers_exclude _ c m,
    get_nightly_schedulers_exclude _ c m,
    get_sandbox_schedulers_exclude _ c m, ?_, ?_⟩
  · rw [BuildManager.get_schedulers]
    refine congrArg₂ (· ++ ·) (congrArg₂ (· ++ ·) ?_ ?_) ?_
    · exact List.flatMap_congr (fun u _ =>
        get_nightly_schedulers_target_list u m _)
    · rfl
    · rfl
  · simp only [BuildManager.get_builders]
    rw [gbLoop_manager { m with target_list := (m.target_list.set i (excludeCombination (m.target_list.get ⟨i, hi⟩) c)).reverse } m rfl rfl rfl]
  · intro python pyver env category sandbox
    rw [get_builders_exclude, if_pos rfl]
  · intro combination hne python pyver env category sandbox
    rw [get_builders_exclude, if_neg hne]

/-- C6 counterexample: excluding `("x","1")` from the nightly target
`tNight` also *changes* the cell of `tNight` under `("x","2")`: its
nightly scheduler now fires at 00:00 instead of 01:30 (skipped
combinations no longer advance the stagger accumulator). -/
theorem exclusion_changes_sibling_nightly_time :
    mNight.get_schedulers =
      [Scheduler.nightly "n-('x', '1')" [some "n_x_1_py2.6"] 0 0,
       Scheduler.nightly "n-('x', '2')" [some "n_x_2_py2.6"] 1 30] ∧
    mNightEx.get_schedulers =
      [Scheduler.nightly "n-('x', '2')" [some "n_x_2_py2.6"] 0 0] ∧
    Scheduler.nightly "n-('x', '2')" [some "n_x_2_py2.6"] 1 30 ∉
      mNightEx.get_schedulers :=
  ⟨by decide, by decide, by decide⟩

/-- C6 witness: the frame theorem applied at the concrete nightly
manager (the excluded combination's builder cells vanish). -/
theorem exclusion_frame_witness :
    (excludeCombination tNight ("x", "1")).get_builders mNight ("x", "1")
      "python2.6" "2.6" [] "builds" false = [] :=
  (exclusion_frame mNight 0 ("x", "1") (by decide) tNight
      (excludeCombination tNight ("x", "1"))
      { mNight with target_list := mNight.target_list.set 0 (excludeCombination tNight ("x", "1")) }
      rfl rfl rfl).2.2.2.2.2.1 "python2.6" "2.6" [] "builds" false
